import Mathlib

/-!
Shallow embedding of the `seq-marked` crate: tombstone-aware sequenced
values (`Marked`, `SeqMarked`, `SeqData`), their derived lexicographic
order, the internal/user sequence distinction, the `SeqValue` and
`Expirable` capabilities, and the conversion lattice (including the
fallible UTF-8 payload conversion).

`u64` is modelled as `Nat`; where overflow matters the modulus `2 ^ 64`
appears explicitly.
-/

namespace SeqMarkedLib

/-- Modulus of the `u64` machine integer type. -/
def U64_MOD : Nat := 2 ^ 64

/-- Largest `u64` value, `u64::MAX`. -/
def U64_MAX : Nat := U64_MOD - 1

/-- `Marked<D>` from `src/marked/mod.rs`: payload or deletion marker.
`Normal` is declared first so that in the derived order `TombStone`
is greater than any `Normal`. -/
inductive Marked (D : Type) where
  | Normal (d : D)
  | TombStone
deriving DecidableEq

/-- Rust's `compare` on a type with a total order
(`compareOfLessAndEq` shape, as `Ord` derives for ordered scalars). -/
def cmpOf {D : Type} [LinearOrder D] (a b : D) : Ordering :=
  if a < b then Ordering.lt else if a = b then Ordering.eq else Ordering.gt

/-- Derived `Ord` for the enum `Marked<D>`: discriminants in declaration
order (`Normal` before `TombStone`), payloads compared when both `Normal`. -/
def Marked.cmp {D : Type} [LinearOrder D] : Marked D → Marked D → Ordering
  | .Normal a, .Normal b => cmpOf a b
  | .Normal _, .TombStone => Ordering.lt
  | .TombStone, .Normal _ => Ordering.gt
  | .TombStone, .TombStone => Ordering.eq

/-- `SeqMarked<D>` from `src/seq_marked/mod.rs`: sequence number plus
marked payload.  `seq` is the first field so the derived order compares
it first. -/
structure SeqMarked (D : Type) where
  seq : Nat
  marked : Marked D
deriving DecidableEq

namespace SeqMarked

/-- Derived `Ord` for the struct `SeqMarked<D>`: lexicographic,
`seq` first, then `marked`. -/
def cmp {D : Type} [LinearOrder D] (a b : SeqMarked D) : Ordering :=
  (cmpOf a.seq b.seq).then (Marked.cmp a.marked b.marked)

/-- Rust `a < b` for the derived `Ord`. -/
def lt {D : Type} [LinearOrder D] (a b : SeqMarked D) : Prop :=
  cmp a b = Ordering.lt

/-- Rust `a > b` for the derived `Ord`. -/
def gt {D : Type} [LinearOrder D] (a b : SeqMarked D) : Prop :=
  cmp a b = Ordering.gt

/-- Rust `a <= b` for the derived `Ord`. -/
def le {D : Type} [LinearOrder D] (a b : SeqMarked D) : Prop :=
  cmp a b ≠ Ordering.gt

instance {D : Type} [LinearOrder D] (a b : SeqMarked D) : Decidable (lt a b) := by
  unfold lt; infer_instance

instance {D : Type} [LinearOrder D] (a b : SeqMarked D) : Decidable (gt a b) := by
  unfold gt; infer_instance

instance {D : Type} [LinearOrder D] (a b : SeqMarked D) : Decidable (le a b) := by
  unfold le; infer_instance

/-- `SeqMarked::new`. -/
def new {D : Type} (seq : Nat) (marked : Marked D) : SeqMarked D :=
  ⟨seq, marked⟩

/-- `SeqMarked::new_normal`. -/
def new_normal {D : Type} (seq : Nat) (data : D) : SeqMarked D :=
  ⟨seq, Marked.Normal data⟩

/-- `SeqMarked::new_tombstone`. -/
def new_tombstone (D : Type) (seq : Nat) : SeqMarked D :=
  ⟨seq, Marked.TombStone⟩

/-- `SeqMarked::new_not_found`: an absent record, `seq = 0`, tombstone. -/
def new_not_found (D : Type) : SeqMarked D :=
  ⟨0, Marked.TombStone⟩

/-- `SeqMarked::is_tombstone`. -/
def is_tombstone {D : Type} (a : SeqMarked D) : Bool :=
  match a.marked with
  | .Normal _ => false
  | .TombStone => true

/-- `SeqMarked::is_normal`, defined in the source as `!is_tombstone()`. -/
def is_normal {D : Type} (a : SeqMarked D) : Bool :=
  !a.is_tombstone

/-- `SeqMarked::is_absent`: `seq == 0 && is_tombstone()`. -/
def is_absent {D : Type} (a : SeqMarked D) : Bool :=
  a.seq == 0 && a.is_tombstone

/-- `SeqMarked::is_not_found`, defined in the source as `is_absent()`. -/
def is_not_found {D : Type} (a : SeqMarked D) : Bool :=
  a.is_absent

/-- `SeqMarked::map`: transform the payload, keep `seq` and tombstone state. -/
def map {D U : Type} (a : SeqMarked D) (f : D → U) : SeqMarked U :=
  ⟨a.seq,
    match a.marked with
    | .Normal d => Marked.Normal (f d)
    | .TombStone => Marked.TombStone⟩

/-- `SeqMarked::try_map`: fallible payload transform; the `?` operator
propagates the error of `f` unchanged. -/
def try_map {D U E : Type} (a : SeqMarked D) (f : D → Except E U) :
    Except E (SeqMarked U) :=
  match a.marked with
  | .Normal d =>
    match f d with
    | .ok u => Except.ok ⟨a.seq, Marked.Normal u⟩
    | .error e => Except.error e
  | .TombStone => Except.ok ⟨a.seq, Marked.TombStone⟩

/-- `SeqMarked::order_key`: project to `SeqMarked<()>`, keeping `seq`
and presence. -/
def order_key {D : Type} (a : SeqMarked D) : SeqMarked Unit :=
  ⟨a.seq,
    match a.marked with
    | .Normal _ => Marked.Normal ()
    | .TombStone => Marked.TombStone⟩

/-- `SeqMarked::user_seq`: `0` for tombstones, the raw `seq` otherwise. -/
def user_seq {D : Type} (a : SeqMarked D) : Nat :=
  if a.is_tombstone then 0 else a.seq

/-- `SeqMarked::data_ref` / `into_data`: the payload when normal. -/
def into_data {D : Type} (a : SeqMarked D) : Option D :=
  match a.marked with
  | .Normal d => some d
  | .TombStone => none

/-- `SeqMarked::into_parts`. -/
def into_parts {D : Type} (a : SeqMarked D) : Nat × Marked D :=
  (a.seq, a.marked)

/-- `SeqMarked::<()>::zero` from `src/seq_marked/order_key.rs`:
the smallest order key, `seq = 0`, normal. -/
def zero : SeqMarked Unit :=
  ⟨0, Marked.Normal ()⟩

/-- `SeqMarked::<()>::max_value`: `seq = u64::MAX`, tombstone. -/
def max_value : SeqMarked Unit :=
  ⟨U64_MAX, Marked.TombStone⟩

end SeqMarked

/-- `InternalSeq` from `src/seq_marked/internal_seq.rs`: a `u64`
wrapper for the internal numbering that counts tombstones. -/
structure InternalSeq where
  seq : Nat
deriving DecidableEq

/-- `InternalSeq::new`. -/
def InternalSeq.new (seq : Nat) : InternalSeq :=
  ⟨seq⟩

/-- `SeqMarked::internal_seq`: the raw `seq`, wrapped. -/
def SeqMarked.internal_seq {D : Type} (a : SeqMarked D) : InternalSeq :=
  InternalSeq.new a.seq

/-- `SeqData<D>` from `src/seq_data/mod.rs`: a sequence number with an
always-present payload. -/
structure SeqData (D : Type) where
  seq : Nat
  data : D
deriving DecidableEq

/-- `SeqData::new`. -/
def SeqData.new {D : Type} (seq : Nat) (data : D) : SeqData D :=
  ⟨seq, data⟩

/-- `impl From<SeqMarked<D>> for Option<SeqData<D>>` from
`src/seq_data/impl_from_seq_marked.rs`: tombstone becomes `None`. -/
def seqMarkedToSeqData {D : Type} (value : SeqMarked D) : Option (SeqData D) :=
  match value.into_parts with
  | (_, Marked.TombStone) => none
  | (seq, Marked.Normal d) => some (SeqData.new seq d)

/-- `impl From<SeqData<D>> for SeqMarked<D>` from
`src/seq_marked/impl_from_seq_data.rs`: always `Normal`. -/
def seqDataToSeqMarked {D : Type} (value : SeqData D) : SeqMarked D :=
  SeqMarked.new_normal value.seq value.data

/-- The `Expirable` trait from `src/expirable/mod.rs`, as an explicit
method dictionary: an optional absolute expiration instant (ms). -/
structure Expirable (M : Type) where
  expires_at_ms_opt : M → Option Nat

/-- `Expirable::expires_at_ms` default method: `u64::MAX` when absent. -/
def Expirable.expires_at_ms {M : Type} (e : Expirable M) (m : M) : Nat :=
  (e.expires_at_ms_opt m).getD U64_MAX

/-- `impl Expirable for Option<T>` from
`src/expirable/expirable_impl.rs`: `None` metadata never expires. -/
def expirableOption {M : Type} (e : Expirable M) : Expirable (Option M) :=
  ⟨fun o => o.bind e.expires_at_ms_opt⟩

/-- The `SeqValue` trait from `src/seq_value_trait.rs`, as an explicit
dictionary of its required methods over an implementing type `S`. -/
structure SeqValue (M V S : Type) where
  seq : S → Nat
  value : S → Option V
  into_value : S → Option V
  meta : S → Option M

/-- `SeqValue::unpack` default method. -/
def SeqValue.unpack {M V S : Type} (sv : SeqValue M V S) (x : S) :
    Nat × Option V :=
  (sv.seq x, sv.into_value x)

/-- `SeqValue::expires_at_ms_opt` default method: `self.meta()?.expires_at_ms_opt()`. -/
def SeqValue.expires_at_ms_opt {M V S : Type} (sv : SeqValue M V S)
    (e : Expirable M) (x : S) : Option Nat :=
  (sv.meta x).bind e.expires_at_ms_opt

/-- `SeqValue::expires_at_ms` default method:
`self.meta().expires_at_ms()` through the `Option` instance of `Expirable`. -/
def SeqValue.expires_at_ms {M V S : Type} (sv : SeqValue M V S)
    (e : Expirable M) (x : S) : Nat :=
  (expirableOption e).expires_at_ms (sv.meta x)

/-- `SeqValue::is_expired` default method: strictly `expires_at_ms() < now_ms`. -/
def SeqValue.is_expired {M V S : Type} (sv : SeqValue M V S)
    (e : Expirable M) (x : S) (now_ms : Nat) : Bool :=
  decide (sv.expires_at_ms e x < now_ms)

/-- `impl SeqValue<M, T> for SeqMarked<(Option<M>, T)>` from
`src/seq_marked/impl_seq_value.rs`: `seq()` is `user_seq()`. -/
def seqMarkedSeqValue (M T : Type) : SeqValue M T (SeqMarked (Option M × T)) :=
  { seq := fun a => a.user_seq
    value := fun a => a.into_data.map (fun p => p.2)
    into_value := fun a => a.into_data.map (fun p => p.2)
    meta := fun a => a.into_data.bind (fun p => p.1) }

/-- A Unicode scalar value (the content of a Rust `char`): below the
surrogate range or between it and `0x110000`. -/
def validScalar (c : Nat) : Bool :=
  decide (c < 0xD800) || (decide (0xE000 ≤ c) && decide (c < 0x110000))

/-- UTF-8 encoding of one scalar value (Rust `char::encode_utf8`),
1 to 4 bytes. -/
def utf8EncodeChar (c : Nat) : List Nat :=
  if c < 0x80 then [c]
  else if c < 0x800 then [0xC0 + c / 64, 0x80 + c % 64]
  else if c < 0x10000 then
    [0xE0 + c / 4096, 0x80 + c / 64 % 64, 0x80 + c % 64]
  else
    [0xF0 + c / 262144, 0x80 + c / 4096 % 64, 0x80 + c / 64 % 64, 0x80 + c % 64]

/-- UTF-8 encoding of a string (Rust `String::into_bytes`, a string
modelled as its list of scalar values). -/
def utf8Encode : List Nat → List Nat
  | [] => []
  | c :: cs => utf8EncodeChar c ++ utf8Encode cs

/-- One step of strict UTF-8 decoding (Rust `String::from_utf8`):
reads the leading scalar value and returns it with the remaining bytes;
rejects stray continuation bytes, overlong encodings, surrogates and
scalar values above `0x10FFFF`.  A continuation byte is one in
`[0x80, 0xC0)`. -/
def utf8DecodeChar : List Nat → Option (Nat × List Nat)
  | [] => none
  | b0 :: rest =>
    if b0 < 0x80 then some (b0, rest)
    else if b0 < 0xC0 then none
    else if b0 < 0xE0 then
      match rest with
      | b1 :: rest1 =>
        if 0x80 ≤ b1 ∧ b1 < 0xC0 then
          let c := (b0 - 0xC0) * 64 + (b1 - 0x80)
          if 0x80 ≤ c then some (c, rest1) else none
        else none
      | [] => none
    else if b0 < 0xF0 then
      match rest with
      | b1 :: b2 :: rest2 =>
        if (0x80 ≤ b1 ∧ b1 < 0xC0) ∧ (0x80 ≤ b2 ∧ b2 < 0xC0) then
          let c := (b0 - 0xE0) * 4096 + (b1 - 0x80) * 64 + (b2 - 0x80)
          if 0x800 ≤ c ∧ ¬(0xD800 ≤ c ∧ c < 0xE000) then some (c, rest2)
          else none
        else none
      | _ => none
    else if b0 < 0xF8 then
      match rest with
      | b1 :: b2 :: b3 :: rest3 =>
        if (0x80 ≤ b1 ∧ b1 < 0xC0) ∧ (0x80 ≤ b2 ∧ b2 < 0xC0) ∧
            (0x80 ≤ b3 ∧ b3 < 0xC0) then
          let c := (b0 - 0xF0) * 262144 + (b1 - 0x80) * 4096 +
            (b2 - 0x80) * 64 + (b3 - 0x80)
          if 0x10000 ≤ c ∧ c < 0x110000 then some (c, rest3) else none
        else none
      | _ => none
    else none

/-- Iterated UTF-8 decoding, with fuel for termination; each step
consumes at least one byte, so fuel equal to the list length suffices. -/
def utf8DecodeAux : Nat → List Nat → Option (List Nat)
  | _, [] => some []
  | 0, _ :: _ => none
  | fuel + 1, b0 :: rest =>
    match utf8DecodeChar (b0 :: rest) with
    | none => none
    | some (c, r) => (utf8DecodeAux fuel r).map (fun s => c :: s)

/-- Strict UTF-8 decoding of a whole byte list (Rust `String::from_utf8`):
`some` of the scalar values exactly when the bytes are valid UTF-8. -/
def utf8Decode (l : List Nat) : Option (List Nat) :=
  utf8DecodeAux l.length l

/-- The error kind the conversion produces: `io::ErrorKind::InvalidData`. -/
inductive IoErrorKind where
  | InvalidData
deriving DecidableEq

/-- `impl TryFrom<Marked<(Option<M>, Vec<u8>)>> for Marked<(Option<M>, String)>`
from `src/marked/impl_try_from_meta_bytes.rs`: tombstone passes through,
a normal byte payload is decoded as UTF-8, failure becomes `InvalidData`. -/
def Marked.try_from_meta_bytes {M : Type}
    (marked : Marked (Option M × List Nat)) :
    Except IoErrorKind (Marked (Option M × List Nat)) :=
  match marked with
  | .TombStone => Except.ok Marked.TombStone
  | .Normal (meta, value) =>
    match utf8Decode value with
    | none => Except.error IoErrorKind.InvalidData
    | some s => Except.ok (Marked.Normal (meta, s))

/-- `impl From<Marked<(Option<M>, String)>> for Marked<(Option<M>, Vec<u8>)>`:
the total inverse, `String::into_bytes` on a normal payload. -/
def Marked.from_meta_string {M : Type}
    (value : Marked (Option M × List Nat)) : Marked (Option M × List Nat) :=
  match value with
  | .TombStone => Marked.TombStone
  | .Normal (meta, value) => Marked.Normal (meta, utf8Encode value)

/-- `impl TryFrom<SeqMarked<(Option<M>, Vec<u8>)>> for SeqMarked<(Option<M>, String)>`
from `src/seq_marked/impl_try_from_meta_bytes.rs`: split into parts,
convert the marked payload, reassemble. -/
def SeqMarked.try_from_meta_bytes {M : Type}
    (value : SeqMarked (Option M × List Nat)) :
    Except IoErrorKind (SeqMarked (Option M × List Nat)) :=
  match value.into_parts with
  | (seq, marked) =>
    match Marked.try_from_meta_bytes marked with
    | .error e => Except.error e
    | .ok m => Except.ok (SeqMarked.new seq m)

/-- `impl From<SeqMarked<(Option<M>, String)>> for SeqMarked<(Option<M>, Vec<u8>)>`. -/
def SeqMarked.from_meta_string {M : Type}
    (value : SeqMarked (Option M × List Nat)) : SeqMarked (Option M × List Nat) :=
  match value.into_parts with
  | (seq, marked) => SeqMarked.new seq (Marked.from_meta_string marked)

lemma cmpOf_eq_lt {D : Type} [LinearOrder D] {a b : D} :
    cmpOf a b = Ordering.lt ↔ a < b := by
  unfold cmpOf
  split_ifs with h1 h2
  · simpa using h1
  · simp only [reduceCtorEq, false_iff]
    exact h1
  · simp only [reduceCtorEq, false_iff]
    exact h1

lemma cmpOf_eq_eq {D : Type} [LinearOrder D] {a b : D} :
    cmpOf a b = Ordering.eq ↔ a = b := by
  unfold cmpOf
  split_ifs with h1 h2
  · simp only [reduceCtorEq, false_iff]
    exact ne_of_lt h1
  · simpa using h2
  · simp only [reduceCtorEq, false_iff]
    exact h2

lemma cmpOf_eq_gt {D : Type} [LinearOrder D] {a b : D} :
    cmpOf a b = Ordering.gt ↔ b < a := by
  unfold cmpOf
  split_ifs with h1 h2
  · simp only [reduceCtorEq, false_iff]
    exact asymm h1
  · subst h2
    simp only [reduceCtorEq, false_iff]
    exact lt_irrefl a
  · simp only [true_iff]
    exact lt_of_le_of_ne (not_lt.mp h1) (fun hba => h2 hba.symm)

lemma SeqMarked.cmp_eq_of_seq_ne {D : Type} [LinearOrder D]
    {a b : SeqMarked D} (h : a.seq ≠ b.seq) :
    SeqMarked.cmp a b = cmpOf a.seq b.seq := by
  unfold SeqMarked.cmp
  rcases hc : cmpOf a.seq b.seq with _ | _ | _
  · rfl
  · exact absurd (cmpOf_eq_eq.mp hc) h
  · rfl

lemma SeqMarked.cmp_eq_of_seq_eq {D : Type} [LinearOrder D]
    {a b : SeqMarked D} (h : a.seq = b.seq) :
    SeqMarked.cmp a b = Marked.cmp a.marked b.marked := by
  unfold SeqMarked.cmp
  rw [cmpOf_eq_eq.mpr h]
  rfl

lemma SeqMarked.lt_new_normal_iff {D : Type} [LinearOrder D]
    {s1 s2 : Nat} {d1 d2 : D} :
    SeqMarked.lt (SeqMarked.new_normal s1 d1) (SeqMarked.new_normal s2 d2) ↔
      s1 < s2 ∨ (s1 = s2 ∧ d1 < d2) := by
  unfold SeqMarked.lt SeqMarked.cmp SeqMarked.new_normal Marked.cmp
  rcases hc : cmpOf s1 s2 with _ | _ | _
  · simp only [Ordering.then, true_iff]
    exact Or.inl (cmpOf_eq_lt.mp hc)
  · have hs : s1 = s2 := cmpOf_eq_eq.mp hc
    subst hs
    simp only [Ordering.then, cmpOf_eq_lt, lt_self_iff_false, false_or, true_and]
  · simp only [Ordering.then, reduceCtorEq, false_iff]
    have hgt : s2 < s1 := cmpOf_eq_gt.mp hc
    push_neg
    constructor
    · exact le_of_lt hgt
    · intro hs
      exact absurd hs (ne_of_gt hgt)

/-- C1: for any linearly ordered payload type, comparison of `SeqMarked`
values is three-level lexicographic: the sequence numbers are compared
first; at equal sequence numbers a tombstone compares greater than a
normal value; when both are normal the payloads are compared.
Equivalently, `new_normal s1 d1 < new_normal s2 d2` iff `s1 < s2`, or
`s1 = s2` and `d1 < d2`. -/
theorem seqMarked_cmp_three_level {D : Type} [LinearOrder D] :
    (∀ a b : SeqMarked D, a.seq ≠ b.seq →
      SeqMarked.cmp a b = cmpOf a.seq b.seq)
    ∧ (∀ (s : Nat) (d : D),
        SeqMarked.cmp (SeqMarked.new_tombstone D s) (SeqMarked.new_normal s d) =
          Ordering.gt
        ∧ SeqMarked.cmp (SeqMarked.new_normal s d) (SeqMarked.new_tombstone D s) =
            Ordering.lt)
    ∧ (∀ (s : Nat) (d1 d2 : D),
        SeqMarked.cmp (SeqMarked.new_normal s d1) (SeqMarked.new_normal s d2) =
          cmpOf d1 d2)
    ∧ (∀ (s1 s2 : Nat) (d1 d2 : D),
        SeqMarked.lt (SeqMarked.new_normal s1 d1) (SeqMarked.new_normal s2 d2) ↔
          s1 < s2 ∨ (s1 = s2 ∧ d1 < d2)) := by
  refine ⟨?_, ?_, ?_, ?_⟩
  · intro a b h
    exact SeqMarked.cmp_eq_of_seq_ne h
  · intro s d
    constructor
    · rw [SeqMarked.cmp_eq_of_seq_eq (a := SeqMarked.new_tombstone D s)
        (b := SeqMarked.new_normal s d) rfl]
      rfl
    · rw [SeqMarked.cmp_eq_of_seq_eq (a := SeqMarked.new_normal s d)
        (b := SeqMarked.new_tombstone D s) rfl]
      rfl
  · intro s d1 d2
    rw [SeqMarked.cmp_eq_of_seq_eq (a := SeqMarked.new_normal s d1)
      (b := SeqMarked.new_normal s d2) rfl]
    rfl
  · intro s1 s2 d1 d2
    exact SeqMarked.lt_new_normal_iff

/-- Witness for C1 at concrete inputs. -/
theorem seqMarked_cmp_three_level_witness :
    SeqMarked.cmp (SeqMarked.new_normal 1 (5 : Nat)) (SeqMarked.new_normal 2 3) =
      cmpOf (1 : Nat) 2
    ∧ SeqMarked.cmp (SeqMarked.new_tombstone Nat 7) (SeqMarked.new_normal 7 9) =
        Ordering.gt
    ∧ SeqMarked.lt (SeqMarked.new_normal 2 (1 : Nat)) (SeqMarked.new_normal 2 4) := by
  refine ⟨?_, ?_, ?_⟩
  · exact (seqMarked_cmp_three_level (D := Nat)).1 _ _ (by decide)
  · exact ((seqMarked_cmp_three_level (D := Nat)).2.1 7 9).1
  · exact ((seqMarked_cmp_three_level (D := Nat)).2.2.2 2 2 1 4).mpr
      (Or.inr ⟨rfl, by decide⟩)

/-- C2 counterexample: the claim quantifies over all `u64` sequence
numbers including the overflow case; at `seq = u64::MAX` the `u64`
sum `seq + 1` wraps to `0`, and
`new_tombstone(u64::MAX) < new_normal(0, d')` is false. -/
theorem tombstone_dominance_overflow_cex :
    ¬ SeqMarked.lt (SeqMarked.new_tombstone Nat U64_MAX)
      (SeqMarked.new_normal ((U64_MAX + 1) % U64_MOD) 0) := by
  decide

/-- C2 (amended): for every `seq`, `new_tombstone seq > new_normal seq d`;
and whenever `seq + 1` does not overflow `u64`,
`new_tombstone seq < new_normal (seq + 1) d'` (the `u64` sum is
`(seq + 1) % 2 ^ 64`). -/
theorem tombstone_dominance {D : Type} [LinearOrder D] (s : Nat) (d d' : D) :
    SeqMarked.gt (SeqMarked.new_tombstone D s) (SeqMarked.new_normal s d)
    ∧ (s + 1 < U64_MOD →
        SeqMarked.lt (SeqMarked.new_tombstone D s)
          (SeqMarked.new_normal ((s + 1) % U64_MOD) d')) := by
  constructor
  · unfold SeqMarked.gt
    rw [SeqMarked.cmp_eq_of_seq_eq (a := SeqMarked.new_tombstone D s)
      (b := SeqMarked.new_normal s d) rfl]
    rfl
  · intro h
    rw [Nat.mod_eq_of_lt h]
    unfold SeqMarked.lt
    rw [SeqMarked.cmp_eq_of_seq_ne
      (by simp only [SeqMarked.new_tombstone, SeqMarked.new_normal]; omega)]
    exact cmpOf_eq_lt.mpr (Nat.lt_succ_self s)

/-- Witness for C2 (amended) at concrete inputs. -/
theorem tombstone_dominance_witness :
    SeqMarked.gt (SeqMarked.new_tombstone Nat 5) (SeqMarked.new_normal 5 7)
    ∧ SeqMarked.lt (SeqMarked.new_tombstone Nat 5)
        (SeqMarked.new_normal ((5 + 1) % U64_MOD) 9) := by
  have h := tombstone_dominance (D := Nat) 5 7 9
  exact ⟨h.1, h.2 (by decide)⟩

/-- C3: for every `seq > 0`, `new_tombstone(seq).user_seq() = 0` while
`internal_seq() = seq`; `user_seq()` is `0` exactly on tombstones and the
raw `seq` otherwise; `internal_seq()` is always the raw stored `seq`; and
the `SeqValue` implementation for `SeqMarked<(Option<M>, T)>` reports
`user_seq()` as its `seq()`, so a tombstone never exposes a nonzero
sequence. -/
theorem user_seq_internal_seq_spec {D M T : Type} :
    (∀ s : Nat, 0 < s →
      (SeqMarked.new_tombstone D s).user_seq = 0
      ∧ ((SeqMarked.new_tombstone D s).internal_seq).seq = s)
    ∧ (∀ a : SeqMarked D, a.is_tombstone = true → a.user_seq = 0)
    ∧ (∀ a : SeqMarked D, a.is_tombstone = false → a.user_seq = a.seq)
    ∧ (∀ a : SeqMarked D, (a.internal_seq).seq = a.seq)
    ∧ (∀ a : SeqMarked (Option M × T), (seqMarkedSeqValue M T).seq a = a.user_seq)
    ∧ (∀ a : SeqMarked (Option M × T), a.is_tombstone = true →
        (seqMarkedSeqValue M T).seq a = 0) := by
  refine ⟨?_, ?_, ?_, ?_, ?_, ?_⟩
  · intro s _
    exact ⟨rfl, rfl⟩
  · intro a h
    unfold SeqMarked.user_seq
    rw [h]
    rfl
  · intro a h
    unfold SeqMarked.user_seq
    rw [h]
    rfl
  · intro a
    rfl
  · intro a
    rfl
  · intro a h
    show a.user_seq = 0
    unfold SeqMarked.user_seq
    rw [h]
    rfl

/-- Witness for C3 at concrete inputs. -/
theorem user_seq_internal_seq_spec_witness :
    (SeqMarked.new_tombstone Nat 9).user_seq = 0
    ∧ ((SeqMarked.new_tombstone Nat 9).internal_seq).seq = 9
    ∧ (seqMarkedSeqValue Nat Nat).seq (SeqMarked.new_tombstone (Option Nat × Nat) 4) = 0 := by
  have h := user_seq_internal_seq_spec (D := Nat) (M := Nat) (T := Nat)
  have h1 := h.1 9 (by decide)
  exact ⟨h1.1, h1.2, h.2.2.2.2.2 _ rfl⟩

/-- C4: `new_not_found().is_absent()` is true, `new_tombstone(0).is_absent()`
is true, `new_tombstone(1).is_absent()` is false; `is_absent()` holds
exactly when `seq = 0` and the value is a tombstone; and `new_not_found()`
is identical to `new_tombstone(0)`. -/
theorem is_absent_spec {D : Type} :
    (SeqMarked.new_not_found D).is_absent = true
    ∧ (SeqMarked.new_tombstone D 0).is_absent = true
    ∧ (SeqMarked.new_tombstone D 1).is_absent = false
    ∧ (∀ a : SeqMarked D, a.is_absent = true ↔ a.seq = 0 ∧ a.is_tombstone = true)
    ∧ SeqMarked.new_not_found D = SeqMarked.new_tombstone D 0 := by
  refine ⟨rfl, rfl, rfl, ?_, rfl⟩
  intro a
  unfold SeqMarked.is_absent
  simp [Bool.and_eq_true, beq_iff_eq]

/-- C5: `map` transforms the payload only: it preserves `order_key`
(hence `seq` and presence), keeps a tombstone as a tombstone with the same
`seq`, never invokes the payload function on a tombstone (the result does
not depend on it), and `try_map` likewise passes a tombstone through
untouched. -/
theorem map_preserves_order_key {D U : Type} (a : SeqMarked D) (f : D → U) :
    (a.map f).order_key = a.order_key
    ∧ (a.map f).seq = a.seq
    ∧ (a.is_tombstone = true → a.map f = ⟨a.seq, Marked.TombStone⟩)
    ∧ (∀ g : D → U, a.is_tombstone = true → a.map f = a.map g)
    ∧ (∀ (E : Type) (ft : D → Except E U), a.is_tombstone = true →
        a.try_map ft = Except.ok ⟨a.seq, Marked.TombStone⟩) := by
  obtain ⟨s, m⟩ := a
  cases m with
  | Normal d =>
    refine ⟨rfl, rfl, ?_, ?_, ?_⟩
    · intro h
      exact absurd h (by simp [SeqMarked.is_tombstone])
    · intro g h
      exact absurd h (by simp [SeqMarked.is_tombstone])
    · intro E ft h
      exact absurd h (by simp [SeqMarked.is_tombstone])
  | TombStone =>
    exact ⟨rfl, rfl, fun _ => rfl, fun _ _ => rfl, fun _ _ _ => rfl⟩

/-- Witness for C5 at concrete inputs. -/
theorem map_preserves_order_key_witness :
    ((SeqMarked.new_tombstone Nat 6).map (fun x => x + 1)).order_key =
      (SeqMarked.new_tombstone Nat 6).order_key
    ∧ (SeqMarked.new_tombstone Nat 6).map (fun x => x + 1) =
        ⟨(SeqMarked.new_tombstone Nat 6).seq, Marked.TombStone⟩
    ∧ (SeqMarked.new_tombstone Nat 6).map (fun x => x + 1) =
        (SeqMarked.new_tombstone Nat 6).map (fun x => x * 2) := by
  have h := map_preserves_order_key (SeqMarked.new_tombstone Nat 6) (fun x => x + 1)
  exact ⟨h.1, h.2.2.1 rfl, h.2.2.2.1 (fun x => x * 2) rfl⟩

/-- C6: `try_map f` succeeds iff the value is a tombstone (returned as a
tombstone with the same `seq`, `f` unevaluated) or the payload transform
succeeds; when `f` returns an error, that exact error is returned
unwrapped, and no partially-converted value is produced. -/
theorem try_map_spec {D U E : Type} (a : SeqMarked D) (f : D → Except E U) :
    (a.is_tombstone = true → a.try_map f = Except.ok ⟨a.seq, Marked.TombStone⟩)
    ∧ (∀ d u, a.marked = Marked.Normal d → f d = Except.ok u →
        a.try_map f = Except.ok ⟨a.seq, Marked.Normal u⟩)
    ∧ (∀ d e, a.marked = Marked.Normal d → f d = Except.error e →
        a.try_map f = Except.error e)
    ∧ ((∃ b, a.try_map f = Except.ok b) ↔
        a.is_tombstone = true ∨ ∃ d u, a.marked = Marked.Normal d ∧ f d = Except.ok u) := by
  obtain ⟨s, m⟩ := a
  cases m with
  | Normal d =>
    refine ⟨?_, ?_, ?_, ?_⟩
    · intro h
      exact absurd h (by simp [SeqMarked.is_tombstone])
    · intro d' u hm hf
      cases hm
      show SeqMarked.try_map _ _ = _
      unfold SeqMarked.try_map
      dsimp only
      rw [hf]
    · intro d' e hm hf
      cases hm
      show SeqMarked.try_map _ _ = _
      unfold SeqMarked.try_map
      dsimp only
      rw [hf]
    · unfold SeqMarked.try_map
      dsimp only
      cases hf : f d with
      | ok u =>
        simp only [hf]
        constructor
        · intro _
          exact Or.inr ⟨d, u, rfl, hf⟩
        · intro _
          exact ⟨_, rfl⟩
      | error e =>
        simp only [hf]
        constructor
        · rintro ⟨b, hb⟩
          cases hb
        · rintro (h | ⟨d', u, hd, hu⟩)
          · exact absurd h (by simp [SeqMarked.is_tombstone])
          · cases hd
            rw [hf] at hu
            cases hu
  | TombStone =>
    refine ⟨fun _ => rfl, ?_, ?_, ?_⟩
    · intro d u hm
      cases hm
    · intro d e hm
      cases hm
    · constructor
      · intro _
        exact Or.inl rfl
      · intro _
        exact ⟨_, rfl⟩

/-- Witness for C6 at concrete inputs. -/
theorem try_map_spec_witness :
    (SeqMarked.new_normal 3 (10 : Nat)).try_map
        (fun d => (Except.ok (d + 1) : Except String Nat)) =
      Except.ok ⟨3, Marked.Normal 11⟩
    ∧ (SeqMarked.new_normal 3 (10 : Nat)).try_map
        (fun _ => (Except.error "boom" : Except String Nat)) =
      Except.error "boom"
    ∧ (SeqMarked.new_tombstone Nat 3).try_map
        (fun d => (Except.ok (d + 1) : Except String Nat)) =
      Except.ok ⟨3, Marked.TombStone⟩ := by
  refine ⟨?_, ?_, ?_⟩
  · exact (try_map_spec (SeqMarked.new_normal 3 (10 : Nat))
      (fun d => (Except.ok (d + 1) : Except String Nat))).2.1 10 11 rfl rfl
  · exact (try_map_spec (SeqMarked.new_normal 3 (10 : Nat))
      (fun _ => (Except.error "boom" : Except String Nat))).2.2.1 10 "boom" rfl rfl
  · exact (try_map_spec (SeqMarked.new_tombstone Nat 3)
      (fun d => (Except.ok (d + 1) : Except String Nat))).1 rfl

/-- C8: a normal `SeqMarked` converts to `Some SeqData` with the same
`seq` and payload and converts back to the original value (the round trip
is the identity on normal values); a tombstone converts to `None`; and any
`SeqData` converts to a normal `SeqMarked` with the same `seq`. -/
theorem seq_data_round_trip {D : Type} :
    (∀ (s : Nat) (d : D),
      seqMarkedToSeqData (SeqMarked.new_normal s d) = some (SeqData.new s d)
      ∧ seqDataToSeqMarked (SeqData.new s d) = SeqMarked.new_normal s d)
    ∧ (∀ a : SeqMarked D, a.is_tombstone = false →
        (seqMarkedToSeqData a).map seqDataToSeqMarked = some a)
    ∧ (∀ s : Nat, seqMarkedToSeqData (SeqMarked.new_tombstone D s) = none)
    ∧ (∀ v : SeqData D,
        seqDataToSeqMarked v = SeqMarked.new_normal v.seq v.data
        ∧ (seqDataToSeqMarked v).is_tombstone = false
        ∧ (seqDataToSeqMarked v).seq = v.seq) := by
  refine ⟨fun s d => ⟨rfl, rfl⟩, ?_, fun s => rfl, fun v => ⟨rfl, rfl, rfl⟩⟩
  intro a h
  obtain ⟨s, m⟩ := a
  cases m with
  | Normal d => rfl
  | TombStone => exact absurd h (by simp [SeqMarked.is_tombstone])

/-- Witness for C8 at concrete inputs. -/
theorem seq_data_round_trip_witness :
    (seqMarkedToSeqData (SeqMarked.new_normal 11 (3 : Nat))).map seqDataToSeqMarked =
      some (SeqMarked.new_normal 11 3) := by
  exact (seq_data_round_trip (D := Nat)).2.1 (SeqMarked.new_normal 11 3) rfl

/-- C9: for any `SeqValue` implementation with `Expirable` metadata,
`expires_at_ms()` is the metadata's expiration instant when set and
`u64::MAX` when there is no metadata or no expiration; `is_expired(now)`
holds exactly when `expires_at_ms() < now`, so expiry at exactly `now` is
not yet expired. -/
theorem expires_at_ms_spec {M V S : Type} (sv : SeqValue M V S)
    (e : Expirable M) (x : S) :
    (∀ m t, sv.meta x = some m → e.expires_at_ms_opt m = some t →
      sv.expires_at_ms e x = t)
    ∧ (sv.meta x = none → sv.expires_at_ms e x = U64_MAX)
    ∧ (∀ m, sv.meta x = some m → e.expires_at_ms_opt m = none →
        sv.expires_at_ms e x = U64_MAX)
    ∧ (∀ now_ms, sv.is_expired e x now_ms = true ↔ sv.expires_at_ms e x < now_ms)
    ∧ sv.is_expired e x (sv.expires_at_ms e x) = false := by
  refine ⟨?_, ?_, ?_, ?_, ?_⟩
  · intro m t hm ht
    unfold SeqValue.expires_at_ms expirableOption Expirable.expires_at_ms
    rw [hm]
    simp [Option.bind, ht]
  · intro hm
    unfold SeqValue.expires_at_ms expirableOption Expirable.expires_at_ms
    rw [hm]
    rfl
  · intro m hm ht
    unfold SeqValue.expires_at_ms expirableOption Expirable.expires_at_ms
    rw [hm]
    simp [Option.bind, ht]
  · intro now_ms
    unfold SeqValue.is_expired
    exact decide_eq_true_iff
  · unfold SeqValue.is_expired
    simp

/-- Witness for C9: the `SeqMarked<(Option<M>, T)>` implementation at a
concrete value whose metadata expires at 100. -/
theorem expires_at_ms_spec_witness :
    (seqMarkedSeqValue Nat Nat).expires_at_ms ⟨fun m => some m⟩
      (SeqMarked.new_normal 3 (some 100, 7)) = 100
    ∧ (seqMarkedSeqValue Nat Nat).is_expired ⟨fun m => some m⟩
        (SeqMarked.new_normal 3 (some 100, 7)) 100 = false := by
  have h := expires_at_ms_spec (seqMarkedSeqValue Nat Nat) ⟨fun m => some m⟩
    (SeqMarked.new_normal 3 (some 100, 7))
  have h1 : (seqMarkedSeqValue Nat Nat).expires_at_ms ⟨fun m => some m⟩
      (SeqMarked.new_normal 3 (some 100, 7)) = 100 :=
    h.1 100 100 rfl rfl
  refine ⟨h1, ?_⟩
  have h2 := h.2.2.2.2
  rwa [h1] at h2

/-- C10: every `SeqMarked<()>` order key within the `u64` range lies
between the constants `zero()` (seq 0, normal) and `max_value()`
(seq `u64::MAX`, tombstone); and `zero()` is strictly below the absent
sentinel `new_not_found()`. -/
theorem order_key_bounds (x : SeqMarked Unit) (h : x.seq < U64_MOD) :
    SeqMarked.le SeqMarked.zero x
    ∧ SeqMarked.le x SeqMarked.max_value
    ∧ SeqMarked.lt SeqMarked.zero (SeqMarked.new_not_found Unit) := by
  refine ⟨?_, ?_, by decide⟩
  · unfold SeqMarked.le SeqMarked.cmp
    rcases Nat.eq_zero_or_pos x.seq with h0 | h0
    · rw [show cmpOf SeqMarked.zero.seq x.seq = Ordering.eq from
        cmpOf_eq_eq.mpr h0.symm]
      obtain ⟨s, m⟩ := x
      cases m with
      | Normal u =>
        cases u
        simp [Ordering.then, SeqMarked.zero, Marked.cmp, cmpOf]
      | TombStone =>
        simp [Ordering.then, SeqMarked.zero, Marked.cmp]
    · rw [show cmpOf SeqMarked.zero.seq x.seq = Ordering.lt from
        cmpOf_eq_lt.mpr h0]
      simp [Ordering.then]
  · unfold SeqMarked.le SeqMarked.cmp
    have hle : x.seq ≤ U64_MAX := by
      unfold U64_MAX
      omega
    rcases lt_or_eq_of_le hle with hlt | heq
    · rw [show cmpOf x.seq SeqMarked.max_value.seq = Ordering.lt from
        cmpOf_eq_lt.mpr hlt]
      simp [Ordering.then]
    · rw [show cmpOf x.seq SeqMarked.max_value.seq = Ordering.eq from
        cmpOf_eq_eq.mpr heq]
      obtain ⟨s, m⟩ := x
      cases m with
      | Normal u =>
        simp [Ordering.then, SeqMarked.max_value, Marked.cmp]
      | TombStone =>
        simp [Ordering.then, SeqMarked.max_value, Marked.cmp]

/-- Witness for C10 at a concrete order key. -/
theorem order_key_bounds_witness :
    SeqMarked.le SeqMarked.zero (SeqMarked.new_normal 3 ())
    ∧ SeqMarked.le (SeqMarked.new_normal 3 ()) SeqMarked.max_value
    ∧ SeqMarked.lt SeqMarked.zero (SeqMarked.new_not_found Unit) :=
  order_key_bounds (SeqMarked.new_normal 3 ()) (by decide)

lemma utf8DecodeChar_some_length {l : List Nat} {c : Nat} {r : List Nat}
    (h : utf8DecodeChar l = some (c, r)) : r.length < l.length := by
  match l with
  | [] => simp [utf8DecodeChar] at h
  | [b0] =>
    simp only [utf8DecodeChar] at h
    split_ifs at h <;> simp_all
  | [b0, b1] =>
    simp only [utf8DecodeChar] at h
    split_ifs at h <;> simp_all <;> omega
  | [b0, b1, b2] =>
    simp only [utf8DecodeChar] at h
    split_ifs at h <;> simp_all <;> omega
  | b0 :: b1 :: b2 :: b3 :: rest =>
    simp only [utf8DecodeChar] at h
    split_ifs at h <;> simp_all <;> omega

lemma utf8DecodeAux_congr : ∀ (f1 f2 : Nat) (l : List Nat),
    l.length ≤ f1 → l.length ≤ f2 → utf8DecodeAux f1 l = utf8DecodeAux f2 l := by
  intro f1
  induction f1 with
  | zero =>
    intro f2 l h1 _
    have : l = [] := List.eq_nil_of_length_eq_zero (Nat.le_zero.mp h1)
    subst this
    cases f2 <;> rfl
  | succ f ih =>
    intro f2 l h1 h2
    cases l with
    | nil => cases f2 <;> rfl
    | cons b0 rest =>
      cases f2 with
      | zero => simp at h2
      | succ f2' =>
        show utf8DecodeAux (f + 1) (b0 :: rest) = utf8DecodeAux (f2' + 1) (b0 :: rest)
        unfold utf8DecodeAux
        cases hdc : utf8DecodeChar (b0 :: rest) with
        | none => rfl
        | some p =>
          obtain ⟨c, r⟩ := p
          have hlen := utf8DecodeChar_some_length hdc
          simp only [List.length_cons] at hlen h1 h2
          dsimp only
          rw [ih f2' r (by omega) (by omega)]

lemma utf8Decode_cons (b0 : Nat) (rest : List Nat) :
    utf8Decode (b0 :: rest) =
      match utf8DecodeChar (b0 :: rest) with
      | none => none
      | some (c, r) => (utf8Decode r).map (fun s => c :: s) := by
  show utf8DecodeAux (b0 :: rest).length (b0 :: rest) = _
  rw [show (b0 :: rest).length = rest.length + 1 from rfl]
  unfold utf8DecodeAux
  cases hdc : utf8DecodeChar (b0 :: rest) with
  | none => rfl
  | some p =>
    obtain ⟨c, r⟩ := p
    have hlen := utf8DecodeChar_some_length hdc
    simp only [List.length_cons] at hlen
    show (utf8DecodeAux rest.length r).map _ = (utf8DecodeAux r.length r).map _
    rw [utf8DecodeAux_congr rest.length r.length r (by omega) le_rfl]

lemma utf8EncodeChar_ne_nil (c : Nat) : utf8EncodeChar c ≠ [] := by
  unfold utf8EncodeChar
  split_ifs <;> simp

lemma utf8DecodeChar_encodeChar (c : Nat) (h : validScalar c = true) (rest : List Nat) :
    utf8DecodeChar (utf8EncodeChar c ++ rest) = some (c, rest) := by
  have hv : c < 0xD800 ∨ (0xE000 ≤ c ∧ c < 0x110000) := by
    simp only [validScalar, Bool.or_eq_true, Bool.and_eq_true, decide_eq_true_eq] at h
    exact h
  by_cases h1 : c < 0x80
  · rw [show utf8EncodeChar c = [c] from by simp [utf8EncodeChar, h1]]
    show utf8DecodeChar (c :: rest) = _
    simp [utf8DecodeChar, h1]
  · by_cases h2 : c < 0x800
    · rw [show utf8EncodeChar c = [0xC0 + c / 64, 0x80 + c % 64] from by
        simp [utf8EncodeChar, h1, h2]]
      show utf8DecodeChar ((0xC0 + c / 64) :: (0x80 + c % 64) :: rest) = _
      simp only [utf8DecodeChar]
      rw [if_neg (by omega), if_neg (by omega), if_pos (by omega)]
      rw [if_pos (by omega : 0x80 ≤ 0x80 + c % 64 ∧ 0x80 + c % 64 < 0xC0)]
      rw [if_pos (by omega :
        0x80 ≤ (0xC0 + c / 64 - 0xC0) * 64 + (0x80 + c % 64 - 0x80))]
      simp only [Option.some.injEq, Prod.mk.injEq, and_true]
      omega
    · by_cases h3 : c < 0x10000
      · rw [show utf8EncodeChar c =
            [0xE0 + c / 4096, 0x80 + c / 64 % 64, 0x80 + c % 64] from by
          simp [utf8EncodeChar, h1, h2, h3]]
        show utf8DecodeChar
          ((0xE0 + c / 4096) :: (0x80 + c / 64 % 64) :: (0x80 + c % 64) :: rest) = _
        simp only [utf8DecodeChar]
        rw [if_neg (by omega), if_neg (by omega), if_neg (by omega), if_pos (by omega)]
        rw [if_pos (by omega :
          (0x80 ≤ 0x80 + c / 64 % 64 ∧ 0x80 + c / 64 % 64 < 0xC0) ∧
          (0x80 ≤ 0x80 + c % 64 ∧ 0x80 + c % 64 < 0xC0))]
        rw [if_pos (by omega :
          0x800 ≤ (0xE0 + c / 4096 - 0xE0) * 4096 + (0x80 + c / 64 % 64 - 0x80) * 64 +
            (0x80 + c % 64 - 0x80) ∧
          ¬(0xD800 ≤ (0xE0 + c / 4096 - 0xE0) * 4096 + (0x80 + c / 64 % 64 - 0x80) * 64 +
            (0x80 + c % 64 - 0x80) ∧
            (0xE0 + c / 4096 - 0xE0) * 4096 + (0x80 + c / 64 % 64 - 0x80) * 64 +
            (0x80 + c % 64 - 0x80) < 0xE000))]
        simp only [Option.some.injEq, Prod.mk.injEq, and_true]
        omega
      · have h4 : c < 0x110000 := by omega
        rw [show utf8EncodeChar c =
            [0xF0 + c / 262144, 0x80 + c / 4096 % 64, 0x80 + c / 64 % 64, 0x80 + c % 64] from by
          simp [utf8EncodeChar, h1, h2, h3]]
        show utf8DecodeChar ((0xF0 + c / 262144) :: (0x80 + c / 4096 % 64) ::
          (0x80 + c / 64 % 64) :: (0x80 + c % 64) :: rest) = _
        simp only [utf8DecodeChar]
        rw [if_neg (by omega), if_neg (by omega), if_neg (by omega), if_neg (by omega),
          if_pos (by omega)]
        rw [if_pos (by omega :
          (0x80 ≤ 0x80 + c / 4096 % 64 ∧ 0x80 + c / 4096 % 64 < 0xC0) ∧
          (0x80 ≤ 0x80 + c / 64 % 64 ∧ 0x80 + c / 64 % 64 < 0xC0) ∧
          (0x80 ≤ 0x80 + c % 64 ∧ 0x80 + c % 64 < 0xC0))]
        rw [if_pos (by omega :
          0x10000 ≤ (0xF0 + c / 262144 - 0xF0) * 262144 +
            (0x80 + c / 4096 % 64 - 0x80) * 4096 +
            (0x80 + c / 64 % 64 - 0x80) * 64 + (0x80 + c % 64 - 0x80) ∧
          (0xF0 + c / 262144 - 0xF0) * 262144 + (0x80 + c / 4096 % 64 - 0x80) * 4096 +
            (0x80 + c / 64 % 64 - 0x80) * 64 + (0x80 + c % 64 - 0x80) < 0x110000)]
        simp only [Option.some.injEq, Prod.mk.injEq, and_true]
        omega

lemma utf8Decode_encodeChar_append (c : Nat) (h : validScalar c = true) (rest : List Nat) :
    utf8Decode (utf8EncodeChar c ++ rest) = (utf8Decode rest).map (fun s => c :: s) := by
  obtain ⟨b0, bs, henc⟩ : ∃ b0 bs, utf8EncodeChar c = b0 :: bs := by
    cases hh : utf8EncodeChar c with
    | nil => exact absurd hh (utf8EncodeChar_ne_nil c)
    | cons x xs => exact ⟨x, xs, rfl⟩
  have hdc := utf8DecodeChar_encodeChar c h rest
  rw [henc, List.cons_append] at hdc ⊢
  rw [utf8Decode_cons, hdc]

lemma utf8_round_trip (s : List Nat) (h : ∀ c ∈ s, validScalar c = true) :
    utf8Decode (utf8Encode s) = some s := by
  induction s with
  | nil => rfl
  | cons c cs ih =>
    show utf8Decode (utf8EncodeChar c ++ utf8Encode cs) = _
    rw [utf8Decode_encodeChar_append c (h c (by simp)) _,
      ih (fun x hx => h x (by simp [hx]))]
    rfl

/-- C7: the conversion from byte payloads to string payloads fails with
an `InvalidData` error exactly when a normal payload is not valid UTF-8
(for example the bytes `[0xFF, 0xFE, 0xFD]`), passes a tombstone through
unchanged, and preserves the metadata; the inverse conversion (string to
bytes) is total, and encoding a valid string then decoding returns the
original value. -/
theorem meta_bytes_string_conversion {M : Type} :
    (∀ (s : Nat) (meta : Option M) (bytes : List Nat),
      utf8Decode bytes = none →
      SeqMarked.try_from_meta_bytes (SeqMarked.new s (Marked.Normal (meta, bytes))) =
        Except.error IoErrorKind.InvalidData)
    ∧ (∀ (s : Nat) (meta : Option M) (bytes str : List Nat),
        utf8Decode bytes = some str →
        SeqMarked.try_from_meta_bytes (SeqMarked.new s (Marked.Normal (meta, bytes))) =
          Except.ok (SeqMarked.new s (Marked.Normal (meta, str))))
    ∧ (∀ s : Nat,
        SeqMarked.try_from_meta_bytes
          (SeqMarked.new s (Marked.TombStone : Marked (Option M × List Nat))) =
          Except.ok (SeqMarked.new s Marked.TombStone))
    ∧ Marked.try_from_meta_bytes (Marked.TombStone : Marked (Option M × List Nat)) =
        Except.ok Marked.TombStone
    ∧ utf8Decode [0xFF, 0xFE, 0xFD] = none
    ∧ (∀ (s : Nat) (meta : Option M) (str : List Nat),
        (∀ c ∈ str, validScalar c = true) →
        SeqMarked.try_from_meta_bytes
          (SeqMarked.from_meta_string (SeqMarked.new s (Marked.Normal (meta, str)))) =
          Except.ok (SeqMarked.new s (Marked.Normal (meta, str)))) := by
  refine ⟨?_, ?_, fun s => rfl, rfl, by decide, ?_⟩
  · intro s meta bytes h
    simp [SeqMarked.try_from_meta_bytes, Marked.try_from_meta_bytes,
      SeqMarked.into_parts, SeqMarked.new, h]
  · intro s meta bytes str h
    simp [SeqMarked.try_from_meta_bytes, Marked.try_from_meta_bytes,
      SeqMarked.into_parts, SeqMarked.new, h]
  · intro s meta str h
    simp [SeqMarked.from_meta_string, SeqMarked.try_from_meta_bytes,
      Marked.from_meta_string, Marked.try_from_meta_bytes,
      SeqMarked.into_parts, SeqMarked.new, utf8_round_trip str h]

/-- Witness for C7 at concrete inputs: invalid bytes fail, and a valid
string round-trips through bytes. -/
theorem meta_bytes_string_conversion_witness :
    SeqMarked.try_from_meta_bytes
      (SeqMarked.new 20 (Marked.Normal ((some 1 : Option Nat), [0xFF, 0xFE, 0xFD]))) =
      Except.error IoErrorKind.InvalidData
    ∧ SeqMarked.try_from_meta_bytes
        (SeqMarked.from_meta_string
          (SeqMarked.new 30 (Marked.Normal ((some 2 : Option Nat), [104, 105])))) =
        Except.ok (SeqMarked.new 30 (Marked.Normal (some 2, [104, 105]))) := by
  constructor
  · exact (meta_bytes_string_conversion (M := Nat)).1 20 (some 1) _ (by decide)
  · exact (meta_bytes_string_conversion (M := Nat)).2.2.2.2.2 30 (some 2) [104, 105]
      (by decide)

end SeqMarkedLib
